import Mathlib

/-!
Verification of the arbitrage bot's decision engine.

This file gives a shallow embedding, in Lean 4, of the core of the
`blockapps/arbitrage_bot` repository and proves (or refutes) the frozen
specification claims about it.

Conventions used throughout the embedding:
* Python integers are modelled by `ℤ`; Python floor division `//` is
  `Int.fdiv` and floor modulus is `Int.fmod` (both round toward `-∞`,
  exactly as CPython does).
* `math.isqrt` is the integer (floor) square root; it is modelled by the
  executable `isqrt` below, whose characterisation
  `isqrt n * isqrt n ≤ n < (isqrt n + 1) * (isqrt n + 1)` is proved
  (`isqrt_spec`).
* Python code that can raise is modelled with `Option`/`Except`: a `none`
  (resp. `Except.error`) result marks an exception escaping the modelled
  expression.
* CPython `float` is IEEE 754 binary64.  The few float-tainted spots of
  the source (`pool.py`) are modelled exactly, by round-to-nearest,
  ties-to-even over integer pairs `(mantissa, exponent)`; see `rnd64`.
-/

set_option maxRecDepth 1000000
set_option maxHeartbeats 4000000

/-- Source `core/constants.py`: `WEI_SCALE = 10**18`. -/
def WEI_SCALE : ℤ := 10 ^ 18

/-- Source `core/constants.py`: `BPS_DENOM = 10_000`. -/
def BPS_DENOM : ℤ := 10 ^ 4

/-- Fuel-driven base-2 logarithm on `ℕ` (the fuel makes the recursion
structural, hence kernel-computable; with fuel at least `n` it computes
`⌊log₂ n⌋` for `n ≥ 1`, see `log2fuel_spec`). -/
def log2fuel : Nat → Nat → Nat
  | 0, _ => 0
  | f + 1, n => if n < 2 then 0 else log2fuel f (n / 2) + 1

/-- Floor base-2 logarithm of a natural number (`nlog2 0 = 0`). -/
def nlog2 (n : Nat) : Nat := log2fuel n n

/-- Digit-by-digit square-root accumulator: at fuel `f` the candidate bit
`2^f` is added to `acc` when the square stays at most `n`. -/
def isqrtAux : Nat → Nat → Nat → Nat
  | 0, _, acc => acc
  | f + 1, n, acc =>
      if (acc + 2 ^ f) * (acc + 2 ^ f) ≤ n then isqrtAux f n (acc + 2 ^ f)
      else isqrtAux f n acc

/-- Integer (floor) square root, modelling Python `math.isqrt` on
non-negative arguments; `isqrt_spec` proves the floor-square-root
characterisation. -/
def isqrt (n : Nat) : Nat := isqrtAux (nlog2 n / 2 + 1) n 0

/-- Source `core/math_utils.py`, `get_optimal_input` (lines 12-33):

```
x, y = reserve_in, reserve_out
k = x * y
x_target = math.isqrt((k * WEI_SCALE) // market_price_scaled)
if x_target <= x:
    return 0
dx_eff = x_target - x
return (dx_eff * BPS_DENOM) // (BPS_DENOM - fee_basis_points)
```

The function performs no validation (its docstring says the caller must
validate), so it can raise: `// market_price_scaled` raises
`ZeroDivisionError` when the price is `0`, `math.isqrt` raises
`ValueError` on a negative argument, and the final division raises
`ZeroDivisionError` when `fee_basis_points = BPS_DENOM`.  Those three
escapes are modelled by `none`. -/
def get_optimal_input (reserve_in reserve_out market_price_scaled fee_basis_points : ℤ) :
    Option ℤ :=
  if market_price_scaled = 0 then none
  else
    let q := (reserve_in * reserve_out * WEI_SCALE).fdiv market_price_scaled
    if q < 0 then none
    else
      let x_target : ℤ := (isqrt q.toNat : ℕ)
      if x_target ≤ reserve_in then some 0
      else if BPS_DENOM - fee_basis_points = 0 then none
      else some (((x_target - reserve_in) * BPS_DENOM).fdiv (BPS_DENOM - fee_basis_points))

/-- Source `core/math_utils.py`, `get_output_amount` (lines 35-60):
constant-product output with the fee applied to the input; returns `0`
(never raises) when any argument is out of range or the effective input
floors to zero. -/
def get_output_amount (dx reserve_x reserve_y fee_bps : ℤ) : ℤ :=
  if dx ≤ 0 ∨ reserve_x ≤ 0 ∨ reserve_y ≤ 0 ∨ fee_bps < 0 ∨ BPS_DENOM ≤ fee_bps then 0
  else
    let dx_eff := (dx * (BPS_DENOM - fee_bps)).fdiv BPS_DENOM
    if dx_eff ≤ 0 then 0
    else (reserve_y * dx_eff).fdiv (reserve_x + dx_eff)

/-- Trade side returned by `find_optimal_trade_auto`: the source uses the
strings `"Y->X"` (buy X with Y) and `"X->Y"` (sell X for Y). -/
inductive Side where
  | YtoX : Side
  | XtoY : Side
deriving DecidableEq

/-- Rejection-reason categories of `find_optimal_trade_auto`; the source
returns descriptive strings, one per return site (the spec says callers
must key on the category, not the text). -/
inductive RejectReason where
  | invalidInputs : RejectReason
  | noBalances : RejectReason
  | invalidFee : RejectReason
  | noInput : Side → RejectReason
  | noOutput : Side → RejectReason
  | profitTooLow : Side → RejectReason
  | pricesEqual : RejectReason
deriving DecidableEq

/-- The success tuple `(side, amount_in, expected_out, profit)` of
`find_optimal_trade_auto`. -/
structure TradeResult where
  side : Side
  amountIn : ℤ
  expectedOut : ℤ
  profit : ℤ
deriving DecidableEq

/-- Source `core/math_utils.py`, `find_optimal_trade_auto` (lines 94-148).
The Python function returns a pair `(reason, result)`; an uncaught
exception escaping it (possible: `get_optimal_input` divides by the
inverse oracle price `(WEI_SCALE * WEI_SCALE) // oracle_price_xy`, which
floors to `0` when `oracle_price_xy > 10^36`) is modelled by `none` at
the outer `Option` layer. -/
def find_optimal_trade_auto (reserve_x reserve_y oracle_price_xy balance_x balance_y
    fee_bps min_profit : ℤ) : Option (Option RejectReason × Option TradeResult) :=
  if reserve_x ≤ 0 ∨ reserve_y ≤ 0 ∨ oracle_price_xy ≤ 0 then
    some (some RejectReason.invalidInputs, none)
  else if balance_x ≤ 0 ∧ balance_y ≤ 0 then
    some (some RejectReason.noBalances, none)
  else if ¬ (0 ≤ fee_bps ∧ fee_bps < BPS_DENOM) then
    some (some RejectReason.invalidFee, none)
  else
    let P_pool_xy := (reserve_y * WEI_SCALE).fdiv reserve_x
    if P_pool_xy < oracle_price_xy then
      let P_yx := (WEI_SCALE * WEI_SCALE).fdiv oracle_price_xy
      match get_optimal_input reserve_y reserve_x P_yx fee_bps with
      | none => none
      | some dy_opt =>
        let dy := if 0 < dy_opt ∧ 0 < balance_y then min dy_opt balance_y else 0
        if dy ≤ 0 then some (some (RejectReason.noInput Side.YtoX), none)
        else
          let x_out := get_output_amount dy reserve_y reserve_x fee_bps
          if x_out ≤ 0 then some (some (RejectReason.noOutput Side.YtoX), none)
          else
            let profit_y := (x_out * oracle_price_xy).fdiv WEI_SCALE - dy
            if 0 < profit_y ∧ min_profit ≤ profit_y then
              some (none, some ⟨Side.YtoX, dy, x_out, profit_y⟩)
            else some (some (RejectReason.profitTooLow Side.YtoX), none)
    else if oracle_price_xy < P_pool_xy then
      match get_optimal_input reserve_x reserve_y oracle_price_xy fee_bps with
      | none => none
      | some dx_opt =>
        let dx := if 0 < dx_opt ∧ 0 < balance_x then min dx_opt balance_x else 0
        if dx ≤ 0 then some (some (RejectReason.noInput Side.XtoY), none)
        else
          let y_out := get_output_amount dx reserve_x reserve_y fee_bps
          if y_out ≤ 0 then some (some (RejectReason.noOutput Side.XtoY), none)
          else
            let profit_y := y_out - (dx * oracle_price_xy).fdiv WEI_SCALE
            if 0 < profit_y ∧ min_profit ≤ profit_y then
              some (none, some ⟨Side.XtoY, dx, y_out, profit_y⟩)
            else some (some (RejectReason.profitTooLow Side.XtoY), none)
    else some (some RejectReason.pricesEqual, none)

/-- Trade direction of an `ArbitrageOpportunity` (`arb_executor.py` line
154 maps side `"X->Y"` to `"sell"` and `"Y->X"` to `"buy"`). -/
inductive Direction where
  | buy : Direction
  | sell : Direction
deriving DecidableEq

/-- Source `engine/arb_executor.py`, dataclass `ArbitrageOpportunity`
(lines 22-37). -/
structure ArbitrageOpportunity where
  direction : Direction
  optimal_input : ℤ
  expected_output : ℤ
  estimated_profit : ℤ
deriving DecidableEq

/-- Source `engine/helpers.py`, `check_gas_balance` (lines 36-66).  The
function reads `usdst_balance` and `voucher_balance` from the chain
client and `token_in.balance`/`token_in.address`; those reads are passed
here as arguments (`token_is_usdst` is the address comparison against
`USDST_ADDRESS`). -/
def check_gas_balance (usdst_balance voucher_balance token_balance : ℤ)
    (token_is_usdst : Bool) (amount_in : ℤ) : ℤ :=
  let min_usdst_for_gas := WEI_SCALE.fdiv 100
  if voucher_balance ≥ WEI_SCALE ∨ usdst_balance ≥ min_usdst_for_gas then
    if token_is_usdst then max 0 (token_balance - min_usdst_for_gas) else amount_in
  else 0

/-- Source `engine/helpers.py`, `check_sell_pnl` (lines 69-83): blocks
sells that would realize a loss versus the weighted-average acquisition
cost.  `avg_cost_wei` is the value the source fetches through
`pool.get_position_data(token_address)` (0 when unknown). -/
def check_sell_pnl (avg_cost_wei : ℤ) (opportunity : ArbitrageOpportunity) : Bool :=
  if opportunity.direction ≠ Direction.sell then true
  else if opportunity.optimal_input ≤ 0 then false
  else if avg_cost_wei ≤ 0 then true
  else decide (avg_cost_wei < (opportunity.expected_output * WEI_SCALE).fdiv opportunity.optimal_input)

/-- Source `engine/arb_executor.py`, `ArbitrageExecutor.scan_for_opportunity`
(lines 86-175), with the I/O results supplied as arguments: `reserve_a`,
`reserve_b` are the freshly fetched pool reserves, `price_a`, `price_b`
the oracle prices of the two tokens, `balance_a`, `balance_b` the wallet
token balances, and `usdst_balance`, `voucher_balance` the gas-account
balances consumed by `check_gas_balance`.  Any `None` return of the
source (validation failure, no opportunity, or a caught exception —
line 173 catches everything raised in the body, including an exception
escaping `find_optimal_trade_auto`) is `none` here.  Note that the body
never calls `check_sell_pnl` (it is imported at line 18 of the source
but invoked nowhere), so no acquisition-cost argument even appears. -/
def scan_for_opportunity (reserve_a reserve_b price_a price_b usdst_balance voucher_balance
    balance_a balance_b : ℤ) (a_is_usdst b_is_usdst : Bool) (fee_bps min_profit : ℤ) :
    Option ArbitrageOpportunity :=
  if reserve_a ≤ 0 ∨ reserve_b ≤ 0 then none
  else if price_b ≤ 0 then none
  else
    let oracle_price := (price_a * WEI_SCALE).fdiv price_b
    if oracle_price ≤ 0 then none
    else if balance_a ≤ 0 ∧ balance_b ≤ 0 then none
    else
      match find_optimal_trade_auto reserve_a reserve_b oracle_price
          (check_gas_balance usdst_balance voucher_balance balance_a a_is_usdst balance_a)
          (check_gas_balance usdst_balance voucher_balance balance_b b_is_usdst balance_b)
          fee_bps min_profit with
      | none => none
      | some (_, none) => none
      | some (_, some t) =>
          some ⟨if t.side = Side.XtoY then Direction.sell else Direction.buy,
                t.amountIn, t.expectedOut, t.profit⟩

/-- Transaction records appended by `execute_opportunity` (line 207 of
`arb_executor.py` appends one swap record). -/
inductive TxRecord where
  | swap : TxRecord
deriving DecidableEq

/-- Source `engine/arb_executor.py`, dataclass `ExecutionResult`
(lines 39-61), restricted to the fields the claims mention. -/
structure ExecutionResult where
  success : Bool
  opportunity : ArbitrageOpportunity
  transactions : List TxRecord
  error_message : Option String
deriving DecidableEq

/-- Mutable executor state touched by `execute_opportunity`: the
per-pair `is_executing` flag (guarded by `_execution_lock`) and the
cumulative USD profit persisted by the profit ledger. -/
structure ExecutorState where
  is_executing : Bool
  ledger_total : ℤ
deriving DecidableEq

/-- Outcomes of the two blocking collaborator calls inside the `try`
body of `execute_opportunity`: whether `pool.swap` returns a hash
(rather than raising) and whether `wait_for_transaction` succeeds. -/
structure ExecOutcomes where
  swap_ok : Bool
  wait_ok : Bool
deriving DecidableEq

/-- The busy rejection message of `execute_opportunity` (line 186). -/
def busy_message : String := "Executor is already running"

/-- Models the statement `update_cumulative_profit(opportunity.estimated_profit)`
at `arb_executor.py` line 211.  The callee (`helpers.py` line 86) is
declared `update_cumulative_profit(profit_token_b_wei, price_b, file_path="profit.json")`
with two required positional parameters, so this single-argument call
raises `TypeError` in the caller frame — before the callee body (and
hence its internal `try`, and any ledger file access) is ever entered.
On the (unreachable) success path the call would return the USD delta
added to the ledger. -/
def ledger_update_call (_estimated_profit : ℤ) : Except String ℤ :=
  Except.error "TypeError: update_cumulative_profit missing 1 required positional argument price_b"

/-- Source `engine/arb_executor.py`, `ArbitrageExecutor.execute_opportunity`
(lines 177-233).  The busy check under `_execution_lock` (lines 180-189)
is the first branch; the `finally` block (lines 230-233) clears
`is_executing` on every path that entered the `try` body, which the
non-busy branches reproduce by returning `is_executing = false`. -/
def execute_opportunity (st : ExecutorState) (opportunity : ArbitrageOpportunity)
    (oc : ExecOutcomes) : ExecutionResult × ExecutorState :=
  if st.is_executing then
    (⟨false, opportunity, [], some busy_message⟩, st)
  else if ¬ oc.swap_ok then
    (⟨false, opportunity, [], some "swap submission raised"⟩, ⟨false, st.ledger_total⟩)
  else if ¬ oc.wait_ok then
    (⟨false, opportunity, [TxRecord.swap], some "confirmation wait raised"⟩,
     ⟨false, st.ledger_total⟩)
  else
    match ledger_update_call opportunity.estimated_profit with
    | Except.error e =>
        (⟨false, opportunity, [TxRecord.swap], some e⟩, ⟨false, st.ledger_total⟩)
    | Except.ok delta =>
        (⟨true, opportunity, [TxRecord.swap], none⟩, ⟨false, st.ledger_total + delta⟩)

/-- Source `engine/helpers.py`, line 99: conversion of the token-B profit
to USD, `profit_usd_wei = (profit_token_b_wei * price_b) // WEI_SCALE`. -/
def profit_usd_wei (profit_token_b_wei price_b : ℤ) : ℤ :=
  (profit_token_b_wei * price_b).fdiv WEI_SCALE

/-- One concurrent caller of `update_cumulative_profit` (`helpers.py`
lines 96-127).  The read phase (lines 103-110) and the write phase
(lines 117-127) each take and release the exclusive `flock` around a
single file access, but the lock is released between the two phases, so
other callers may interleave there.  `readv` records the cumulative
total obtained by the read phase; `done` is set once the write phase has
run. -/
structure RmwProc where
  readv : Option ℤ
  done : Bool
deriving DecidableEq

/-- One atomic (lock-protected) phase of a ledger caller: a fresh caller
reads the file total; a caller that has read performs its write
`cumulative + profit_usd`; a finished caller leaves the file alone.
Returns the new file contents and the new caller state. -/
def rmw_step (file : ℤ) (p : RmwProc) (add : ℤ) : ℤ × RmwProc :=
  match p.readv, p.done with
  | none, _ => (file, ⟨some file, false⟩)
  | some v, false => (v + add, ⟨some v, true⟩)
  | some _, true => (file, p)

/-- Runs two concurrent `update_cumulative_profit` callers (adding
`addA`, `addB` USD-wei respectively) against one shared ledger file
under a schedule: `true` steps caller A, `false` steps caller B.  Each
step is one lock-protected phase of `rmw_step`, which is exactly the
atomicity the source's per-phase `flock` provides. -/
def run_two (addA addB : ℤ) : List Bool → ℤ → RmwProc → RmwProc → ℤ
  | [], file, _, _ => file
  | true :: rest, file, a, b =>
      let r := rmw_step file a addA
      run_two addA addB rest r.1 r.2 b
  | false :: rest, file, a, b =>
      let r := rmw_step file b addB
      run_two addA addB rest r.1 a r.2

/-- Round the fraction `num / den` (`den > 0`) to the nearest integer,
ties to even — the IEEE 754 rounding rule. -/
def round_half_even (num den : ℤ) : ℤ :=
  let q := num.fdiv den
  let r := num - q * den
  if 2 * r < den then q
  else if den < 2 * r then q + 1
  else if q.fmod 2 = 0 then q else q + 1

/-- Round the positive fraction `num / den` (`num > 0`, `den > 0`, value
within the binary64 normal range) to the nearest IEEE 754 binary64
value, ties to even.  The result is an exact pair `(m, e)` denoting
`m * 2 ^ e`: the 53-bit significand window is located from the binade
`E = ⌊log₂ (num / den)⌋` of the value. -/
def rnd64 (num den : ℤ) : ℤ × ℤ :=
  let E : ℤ := (nlog2 (num.fdiv den).toNat : ℤ)
  if 52 ≤ E then (round_half_even num (den * 2 ^ (E - 52).toNat), E - 52)
  else (round_half_even (num * 2 ^ (52 - E).toNat) den, E - 52)

/-- CPython `float(n)` on a non-negative `int` `n`: the nearest binary64
value (ties to even).  The source only converts non-negative quantities. -/
def float_of_int (n : ℤ) : ℤ × ℤ :=
  if n ≤ 0 then (0, 0) else rnd64 n 1

/-- The binary64 value of the Python literal `0.96` at `pool.py` line
224, namely `8646911284551352 * 2 ^ (-53)`; `float_lit_96_nearest`
proves it is the value nearest to `96 / 100`. -/
def float_lit_96 : ℤ × ℤ := (8646911284551352, -53)

/-- CPython multiplication of two binary64 values `(m, e)`: the exact
product rounded back to binary64 (for values in the normal range). -/
def float_mul (a b : ℤ × ℤ) : ℤ × ℤ :=
  let m := a.1 * b.1
  let e := a.2 + b.2
  if m ≤ 0 then (0, 0)
  else if 0 ≤ e then rnd64 (m * 2 ^ e.toNat) 1
  else rnd64 m (2 ^ (-e).toNat)

/-- CPython `int(x)` on a non-negative binary64 value: truncation toward
zero, which on non-negative values is the floor. -/
def int_of_float (a : ℤ × ℤ) : ℤ :=
  if 0 ≤ a.2 then a.1 * 2 ^ a.2.toNat else a.1.fdiv (2 ^ (-a.2).toNat)

/-- Source `onchain/pool.py`, line 224: the `minAmountOut` argument
actually submitted with the swap transaction is
`int(min_amount_out*0.96)` — evaluated in binary64 floating point
(`min_amount_out` is promoted to `float`, multiplied by the double
nearest `0.96`, and the product truncated).  The executor
(`arb_executor.py` line 204) passes the quoted `expected_output`
unreduced as `min_amount_out`, so this is the whole slippage
computation. -/
def min_amount_out_submitted (min_amount_out : ℤ) : ℤ :=
  int_of_float (float_mul (float_of_int min_amount_out) float_lit_96)

/-- Source `onchain/pool.py`, line 153: the reserve of token B is parsed
as `int(float(pool_dict.get('tokenBBalance', 0)))` — the stored integer
goes through binary64 before being truncated back to an integer. -/
def parse_tokenB_balance (n : ℤ) : ℤ :=
  int_of_float (float_of_int n)

/-- With fuel at least `n`, `log2fuel` computes the floor base-2
logarithm: `2 ^ log2fuel f n ≤ n < 2 ^ (log2fuel f n + 1)` for `n ≥ 1`. -/
theorem log2fuel_spec : ∀ f n : ℕ, 1 ≤ n → n ≤ f →
    2 ^ log2fuel f n ≤ n ∧ n < 2 ^ (log2fuel f n + 1) := by
  intro f
  induction f with
  | zero => intro n h1 h2; omega
  | succ f ih =>
    intro n h1 h2
    rw [log2fuel]
    by_cases h : n < 2
    · simp only [h, if_true]
      constructor
      · simpa using h1
      · simpa using h
    · simp only [h, if_false]
      have hrec := ih (n / 2) (by omega) (by omega)
      constructor
      · calc 2 ^ (log2fuel f (n / 2) + 1) = 2 ^ log2fuel f (n / 2) * 2 := by ring
          _ ≤ n / 2 * 2 := by omega
          _ ≤ n := by omega
      · calc n < (n / 2) * 2 + 2 := by omega
          _ ≤ 2 ^ (log2fuel f (n / 2) + 1) * 2 := by
              have := hrec.2; omega
          _ = 2 ^ (log2fuel f (n / 2) + 1 + 1) := by ring

/-- Floor-logarithm characterisation of `nlog2` for positive inputs. -/
theorem nlog2_spec (n : ℕ) (h : 1 ≤ n) : 2 ^ nlog2 n ≤ n ∧ n < 2 ^ (nlog2 n + 1) :=
  log2fuel_spec n n h le_rfl

/-- The square-root accumulator keeps the two-sided bound invariant. -/
theorem isqrtAux_spec : ∀ (f n acc : ℕ), acc * acc ≤ n → n < (acc + 2 ^ f) * (acc + 2 ^ f) →
    isqrtAux f n acc * isqrtAux f n acc ≤ n ∧
      n < (isqrtAux f n acc + 1) * (isqrtAux f n acc + 1) := by
  intro f
  induction f with
  | zero =>
    intro n acc h1 h2
    rw [isqrtAux]
    exact ⟨h1, by simpa using h2⟩
  | succ f ih =>
    intro n acc h1 h2
    rw [isqrtAux]
    by_cases h : (acc + 2 ^ f) * (acc + 2 ^ f) ≤ n
    · simp only [h, if_true]
      refine ih n (acc + 2 ^ f) h ?_
      have : acc + 2 ^ f + 2 ^ f = acc + 2 ^ (f + 1) := by ring
      rw [this]
      exact h2
    · simp only [h, if_false]
      exact ih n acc h1 (by omega)

/-- Floor-square-root characterisation of `isqrt`, matching the contract
of Python `math.isqrt`. -/
theorem isqrt_spec (n : ℕ) : isqrt n * isqrt n ≤ n ∧ n < (isqrt n + 1) * (isqrt n + 1) := by
  rw [isqrt]
  refine isqrtAux_spec _ n 0 (by simp) ?_
  rcases Nat.eq_zero_or_pos n with h0 | h1
  · subst h0
    have : 0 < 2 ^ (nlog2 0 / 2 + 1) := Nat.pos_pow_of_pos _ (by omega)
    nlinarith
  · have hs := nlog2_spec n h1
    have hle : nlog2 n + 1 ≤ (nlog2 n / 2 + 1) + (nlog2 n / 2 + 1) := by omega
    have h2 : 2 ^ (nlog2 n + 1) ≤ 2 ^ ((nlog2 n / 2 + 1) + (nlog2 n / 2 + 1)) :=
      Nat.pow_le_pow_right (by omega) hle
    have h3 : n < 2 ^ ((nlog2 n / 2 + 1) + (nlog2 n / 2 + 1)) := lt_of_lt_of_le hs.2 h2
    have h4 : (2:ℕ) ^ ((nlog2 n / 2 + 1) + (nlog2 n / 2 + 1)) =
        (0 + 2 ^ (nlog2 n / 2 + 1)) * (0 + 2 ^ (nlog2 n / 2 + 1)) := by
      rw [pow_add]; ring
    rw [h4] at h3
    exact h3

/-- The wei scale is positive. -/
theorem WEI_SCALE_pos : (0 : ℤ) < WEI_SCALE := by decide

/-- The basis-point denominator is positive. -/
theorem BPS_DENOM_pos : (0 : ℤ) < BPS_DENOM := by decide

/-- Python floor division by a positive divisor agrees with Euclidean
division, letting the Mathlib `ediv` lemmas apply. -/
theorem fdiv_pos_eq_ediv (a b : ℤ) (hb : 0 < b) : a.fdiv b = a / b :=
  Int.fdiv_eq_ediv a hb.le

/-- C7: for positive reserves and a fee in `[0, 10000)`, the swap output
of `get_output_amount` is non-negative and strictly below the opposite
reserve, for every integer input `dx`. -/
theorem c7_output_bounded (dx reserve_x reserve_y fee_bps : ℤ) (hx : 0 < reserve_x)
    (hy : 0 < reserve_y) (hf0 : 0 ≤ fee_bps) (hf1 : fee_bps < BPS_DENOM) :
    0 ≤ get_output_amount dx reserve_x reserve_y fee_bps ∧
      get_output_amount dx reserve_x reserve_y fee_bps < reserve_y := by
  simp only [get_output_amount]
  split_ifs with h1 h2
  · exact ⟨le_refl 0, hy⟩
  · exact ⟨le_refl 0, hy⟩
  · have hd : 0 < (dx * (BPS_DENOM - fee_bps)).fdiv BPS_DENOM := by omega
    set d := (dx * (BPS_DENOM - fee_bps)).fdiv BPS_DENOM with hdef
    have hden : 0 < reserve_x + d := by omega
    rw [fdiv_pos_eq_ediv _ _ hden]
    refine ⟨Int.ediv_nonneg (by nlinarith) hden.le, ?_⟩
    rw [Int.ediv_lt_iff_lt_mul hden]
    nlinarith

/-- Witness for `c7_output_bounded` at a concrete input. -/
theorem c7_output_bounded_witness :
    0 ≤ get_output_amount 10 100 100 30 ∧ get_output_amount 10 100 100 30 < 100 :=
  c7_output_bounded 10 100 100 30 (by decide) (by decide) (by decide) (by decide)

/-- C5 fails as stated: `get_optimal_input` does not return `0` on the
non-positive argument `market_price_scaled = 0` — the source raises
`ZeroDivisionError` at `(k * WEI_SCALE) // market_price_scaled`
(modelled by `none`). -/
theorem c5_counterexample : get_optimal_input 1 1 0 30 = none := by decide

/-- C5 amended: `get_output_amount` is total and returns the neutral `0`
whenever an argument is out of range or the effective input floors to
zero; `get_optimal_input` never raises provided the caller has validated
its inputs (positive reserves and price, fee in `[0, 10000)`), as its
docstring requires. -/
theorem c5_amended (dx rx ry fee ri ro price f : ℤ)
    (hri : 0 < ri) (hro : 0 < ro) (hp : 0 < price) (hf0 : 0 ≤ f) (hf1 : f < BPS_DENOM) :
    ((dx ≤ 0 ∨ rx ≤ 0 ∨ ry ≤ 0 ∨ fee < 0 ∨ BPS_DENOM ≤ fee ∨
        (dx * (BPS_DENOM - fee)).fdiv BPS_DENOM ≤ 0) →
      get_output_amount dx rx ry fee = 0) ∧
    ∃ r, get_optimal_input ri ro price f = some r := by
  constructor
  · intro h
    simp only [get_output_amount]
    by_cases h1 : dx ≤ 0 ∨ rx ≤ 0 ∨ ry ≤ 0 ∨ fee < 0 ∨ BPS_DENOM ≤ fee
    · simp [h1]
    · have h2 : (dx * (BPS_DENOM - fee)).fdiv BPS_DENOM ≤ 0 := by tauto
      simp [h1, h2]
  · rw [get_optimal_input]
    have hp0 : ¬ price = 0 := by omega
    have hq : 0 ≤ (ri * ro * WEI_SCALE).fdiv price := by
      rw [fdiv_pos_eq_ediv _ _ hp]
      exact Int.ediv_nonneg (mul_nonneg (mul_nonneg hri.le hro.le) WEI_SCALE_pos.le) hp.le
    simp only [hp0, if_false, not_lt.2 hq]
    by_cases hxt : ((isqrt ((ri * ro * WEI_SCALE).fdiv price).toNat : ℕ) : ℤ) ≤ ri
    · exact ⟨0, by rw [if_pos hxt]⟩
    · have hnz : ¬ (BPS_DENOM - f = 0) := by omega
      exact ⟨((((isqrt ((ri * ro * WEI_SCALE).fdiv price).toNat : ℕ) : ℤ) - ri) *
          BPS_DENOM).fdiv (BPS_DENOM - f), by rw [if_neg hxt, if_neg hnz]⟩

/-- Witness for `c5_amended` at concrete inputs: an out-of-range call of
`get_output_amount` yields `0`, and a validated call of
`get_optimal_input` returns a value. -/
theorem c5_amended_witness :
    get_output_amount (-1) 5 5 30 = 0 ∧ ∃ r, get_optimal_input 1 1 (10 ^ 18) 30 = some r :=
  ⟨(c5_amended (-1) 5 5 30 1 1 (10 ^ 18) 30 (by decide) (by decide) (by decide) (by decide)
      (by decide)).1 (Or.inl (by decide)),
   (c5_amended (-1) 5 5 30 1 1 (10 ^ 18) 30 (by decide) (by decide) (by decide) (by decide)
      (by decide)).2⟩

/-- C6: whenever `find_optimal_trade_auto` returns a trade, the input
amount is clipped to the balance of the spent token (`balance_y` on the
`Y->X` side, `balance_x` on the `X->Y` side) and the estimated profit is
strictly positive and at least `min_profit`. -/
theorem c6_trade_within_limits (rx ry oxy bx b_y fee minp : ℤ) (r : Option RejectReason)
    (t : TradeResult)
    (h : find_optimal_trade_auto rx ry oxy bx b_y fee minp = some (r, some t)) :
    (t.side = Side.YtoX → t.amountIn ≤ b_y) ∧ (t.side = Side.XtoY → t.amountIn ≤ bx) ∧
      0 < t.profit ∧ minp ≤ t.profit := by
  simp only [find_optimal_trade_auto] at h
  split_ifs at h with h1 h2 h3 h4 h5
  · exact Option.noConfusion (congrArg Prod.snd (Option.some_injective _ h))
  · exact Option.noConfusion (congrArg Prod.snd (Option.some_injective _ h))
  · rcases hopt : get_optimal_input ry rx ((WEI_SCALE * WEI_SCALE).fdiv oxy) fee with _ | dy_opt
    · rw [hopt] at h
      exact Option.noConfusion h
    · rw [hopt] at h
      dsimp only at h
      split_ifs at h
      any_goals exact Option.noConfusion (congrArg Prod.snd (Option.some_injective _ h))
      any_goals omega
      all_goals have ht : _ = t :=
        Option.some_injective _ (congrArg Prod.snd (Option.some_injective _ h))
      all_goals subst ht
      all_goals dsimp only
      all_goals refine ⟨fun _ => min_le_right _ _, fun hS => absurd hS (by decide), ?_, ?_⟩ <;>
        omega
  · rcases hopt : get_optimal_input rx ry oxy fee with _ | dx_opt
    · rw [hopt] at h
      exact Option.noConfusion h
    · rw [hopt] at h
      dsimp only at h
      split_ifs at h
      any_goals exact Option.noConfusion (congrArg Prod.snd (Option.some_injective _ h))
      any_goals omega
      all_goals have ht : _ = t :=
        Option.some_injective _ (congrArg Prod.snd (Option.some_injective _ h))
      all_goals subst ht
      all_goals dsimp only
      all_goals refine ⟨fun hS => absurd hS (by decide), fun _ => min_le_right _ _, ?_, ?_⟩ <;>
        omega
  · exact Option.noConfusion (congrArg Prod.snd (Option.some_injective _ h))
  · exact Option.noConfusion (congrArg Prod.snd (Option.some_injective _ h))

/-- Witness for `c6_trade_within_limits` at a concrete trade-returning
input. -/
theorem c6_trade_within_limits_witness : (0 : ℤ) < 78 ∧ (1 : ℤ) ≤ 78 :=
  ⟨(c6_trade_within_limits 100 100 (4 * 10 ^ 18) 0 50 30 1 none ⟨Side.YtoX, 50, 32, 78⟩
      (by decide)).2.2.1,
   (c6_trade_within_limits 100 100 (4 * 10 ^ 18) 0 50 30 1 none ⟨Side.YtoX, 50, 32, 78⟩
      (by decide)).2.2.2⟩

/-- C9: the spec scenario.  With reserves `10^24`/`10^24`, oracle price
`1.05 * 10^18`, fee 30 bps, `balance_x = 0`, `balance_y = 10^24` and
`min_profit = 10^18`, the finder returns a `Y->X` (buy X with Y) trade
with strictly positive input and strictly positive estimated profit. -/
theorem c9_scenario :
    find_optimal_trade_auto (10 ^ 24) (10 ^ 24) (105 * 10 ^ 16) 0 (10 ^ 24) 30 (10 ^ 18) =
      some (none, some ⟨Side.YtoX, 24769384750210470245186, 24099927051466821133564,
        535538653829691945056⟩) ∧
    (0 : ℤ) < 24769384750210470245186 ∧ (0 : ℤ) < 535538653829691945056 := by decide

/-- C10 fails as stated: on the input below (`oracle_price_xy = 10^37`,
pool price below it), the inverse price `(10^18 * 10^18) // oracle`
floors to `0` and `get_optimal_input` raises `ZeroDivisionError`, so
`find_optimal_trade_auto` returns neither a reason nor a trade — the
exception escapes (modelled by `none`). -/
theorem c10_counterexample : find_optimal_trade_auto 1 1 (10 ^ 37) 0 1 30 0 = none := by decide

/-- C10 amended: on every input on which `find_optimal_trade_auto`
actually returns a pair (no exception escapes), the reason is `none` if
and only if the trade tuple is present. -/
theorem c10_amended (rx ry oxy bx b_y fee minp : ℤ)
    (p : Option RejectReason × Option TradeResult)
    (h : find_optimal_trade_auto rx ry oxy bx b_y fee minp = some p) :
    (p.1 = none ↔ p.2.isSome = true) := by
  simp only [find_optimal_trade_auto] at h
  split_ifs at h with h1 h2 h3 h4 h5
  · cases Option.some_injective _ h
    simp
  · cases Option.some_injective _ h
    simp
  · rcases hopt : get_optimal_input ry rx ((WEI_SCALE * WEI_SCALE).fdiv oxy) fee with _ | dy_opt
    · rw [hopt] at h
      exact Option.noConfusion h
    · rw [hopt] at h
      dsimp only at h
      split_ifs at h
      all_goals cases Option.some_injective _ h
      all_goals simp
  · rcases hopt : get_optimal_input rx ry oxy fee with _ | dx_opt
    · rw [hopt] at h
      exact Option.noConfusion h
    · rw [hopt] at h
      dsimp only at h
      split_ifs at h
      all_goals cases Option.some_injective _ h
      all_goals simp
  · cases Option.some_injective _ h
    simp
  · cases Option.some_injective _ h
    simp

/-- Witness for `c10_amended` at the prices-equal input, where the pair
is `(some pricesEqual, none)`. -/
theorem c10_amended_witness :
    ((some RejectReason.pricesEqual : Option RejectReason) = none ↔
      (none : Option TradeResult).isSome = true) :=
  c10_amended 1 1 (10 ^ 18) 1 1 30 0 (some RejectReason.pricesEqual, none) (by decide)

/-- C1 fails on the code: the scan/execute pipeline never invokes the
loss-prevention guard.  On the concrete market data below the scan
returns a sell opportunity whose implied sell price
`expected_output * 10^18 / optimal_input = 1726854655146170661` is below
the known positive acquisition cost `2 * 10^18` — `check_sell_pnl`
 would veto it (`= false`) — yet the opportunity is returned for
execution (`scan_for_opportunity` takes no acquisition-cost input at
all, because the source never calls `check_sell_pnl`). -/
theorem c1_sell_guard_not_called :
    scan_for_opportunity (10 ^ 24) (2 * 10 ^ 24) (3 * 10 ^ 18) (2 * 10 ^ 18) 0 WEI_SCALE
        (10 ^ 24) (10 ^ 24) false false 30 1 =
      some ⟨Direction.sell, 155166036488717682064490, 267949192431122706472551,
        35200137698046183375816⟩ ∧
    check_sell_pnl (2 * 10 ^ 18)
      ⟨Direction.sell, 155166036488717682064490, 267949192431122706472551,
        35200137698046183375816⟩ = false := by decide

/-- C2 fails on the code: even when the swap submission and the
confirmation wait both succeed, `execute_opportunity` returns
`success = false` and leaves the profit ledger untouched, because the
single-argument call `update_cumulative_profit(opportunity.estimated_profit)`
raises `TypeError` (the callee requires `price_b` as well), which the
blanket `except` turns into a failed `ExecutionResult`.  The transaction
list records that the swap itself did go through. -/
theorem c2_profit_never_recorded :
    (execute_opportunity ⟨false, 7⟩ ⟨Direction.buy, 10 ^ 18, 2 * 10 ^ 18, 5 * 10 ^ 17⟩
        ⟨true, true⟩).1.success = false ∧
    (execute_opportunity ⟨false, 7⟩ ⟨Direction.buy, 10 ^ 18, 2 * 10 ^ 18, 5 * 10 ^ 17⟩
        ⟨true, true⟩).2.ledger_total = 7 ∧
    (execute_opportunity ⟨false, 7⟩ ⟨Direction.buy, 10 ^ 18, 2 * 10 ^ 18, 5 * 10 ^ 17⟩
        ⟨true, true⟩).1.transactions = [TxRecord.swap] := by decide

/-- C3 fails on the code: the ledger lock is released between the read
phase and the write phase of `update_cumulative_profit`, so two
concurrent `record` calls that both read before either writes lose one
update.  With the pre-existing total 7 and each caller adding
`profit_usd_wei 5 WEI_SCALE = 5` USD-wei: the interleaved schedule
(read A, read B, write A, write B) ends at 12, whereas the fully
sequential schedule ends at the claimed `7 + 2 * 5 = 17`. -/
theorem c3_lost_update :
    run_two (profit_usd_wei 5 WEI_SCALE) (profit_usd_wei 5 WEI_SCALE)
        [true, false, true, false] 7 ⟨none, false⟩ ⟨none, false⟩ = 12 ∧
    run_two (profit_usd_wei 5 WEI_SCALE) (profit_usd_wei 5 WEI_SCALE)
        [true, true, false, false] 7 ⟨none, false⟩ ⟨none, false⟩ = 17 ∧
    (12 : ℤ) ≠ 7 + 2 * 5 := by decide

/-- C8: if `execute_opportunity` is entered while the per-pair executing
flag is set, it returns immediately with a failed result carrying the
distinct busy message, no transactions, and unchanged state; every
invocation that does proceed leaves the flag cleared on return, on
success and on every failure path alike. -/
theorem c8_single_flight (st : ExecutorState) (opportunity : ArbitrageOpportunity)
    (oc : ExecOutcomes) :
    (st.is_executing = true →
      execute_opportunity st opportunity oc =
        (⟨false, opportunity, [], some busy_message⟩, st)) ∧
    (st.is_executing = false →
      (execute_opportunity st opportunity oc).2.is_executing = false) := by
  constructor
  · intro hb
    simp [execute_opportunity, hb]
  · intro hb
    simp only [execute_opportunity, hb, ledger_update_call]
    split_ifs <;> first | rfl | exact hb

/-- Witness for `c8_single_flight`: a busy invocation is rejected with
the busy message and untouched state; a proceeding invocation (here one
whose confirmation wait fails) returns with the flag cleared. -/
theorem c8_single_flight_witness :
    execute_opportunity ⟨true, 3⟩ ⟨Direction.buy, 1, 1, 1⟩ ⟨true, true⟩ =
      (⟨false, ⟨Direction.buy, 1, 1, 1⟩, [], some busy_message⟩, ⟨true, 3⟩) ∧
    (execute_opportunity ⟨false, 3⟩ ⟨Direction.buy, 1, 1, 1⟩ ⟨true, false⟩).2.is_executing =
      false :=
  ⟨(c8_single_flight ⟨true, 3⟩ ⟨Direction.buy, 1, 1, 1⟩ ⟨true, true⟩).1 rfl,
   (c8_single_flight ⟨false, 3⟩ ⟨Direction.buy, 1, 1, 1⟩ ⟨true, false⟩).2 rfl⟩

/-- The mantissa of `float_lit_96` makes it the binary64 value nearest to
`96 / 100`: the value `8646911284551352 * 2^(-53)` lies below `96/100`
by less than half an ulp (`2^(-54)`), and its mantissa occupies the full
53-bit window. -/
theorem float_lit_96_nearest :
    (8646911284551352 : ℤ) * 100 ≤ 96 * 2 ^ 53 ∧
    2 * (96 * 2 ^ 53 - 8646911284551352 * 100) < 100 ∧
    2 ^ 52 ≤ (8646911284551352 : ℤ) ∧ (8646911284551352 : ℤ) < 2 ^ 53 := by decide

/-- Rounding an integer (denominator 1) is the identity. -/
theorem round_half_even_one (m : ℤ) : round_half_even m 1 = m := by
  simp [round_half_even]

/-- Integers below `2^53` survive the binary64 round trip: `rnd64` keeps
their exact value and truncation recovers them. -/
theorem rnd64_int_exact (n : ℤ) (h1 : 1 ≤ n) (h2 : n < 2 ^ 53) :
    int_of_float (rnd64 n 1) = n := by
  have hv : (2 : ℤ) ^ 53 = 9007199254740992 := by norm_num
  have htn : n.toNat < 2 ^ 53 := by omega
  have hsp := nlog2_spec n.toNat (by omega)
  have he52 : nlog2 n.toNat ≤ 52 := by
    by_contra hc
    push_neg at hc
    have h53 : (2 : ℕ) ^ 53 ≤ 2 ^ nlog2 n.toNat := Nat.pow_le_pow_right (by omega) (by omega)
    have := hsp.1
    omega
  simp only [rnd64, Int.fdiv_one]
  by_cases hE : (52 : ℤ) ≤ (nlog2 n.toNat : ℤ)
  · have he' : nlog2 n.toNat = 52 := by omega
    rw [if_pos hE, he']
    norm_num [round_half_even_one, int_of_float]
  · rw [if_neg hE]
    rw [round_half_even_one]
    simp only [int_of_float]
    rw [if_neg (by omega : ¬ (0 : ℤ) ≤ (nlog2 n.toNat : ℤ) - 52)]
    have hk : (-((nlog2 n.toNat : ℤ) - 52)).toNat = ((52 : ℤ) - (nlog2 n.toNat : ℤ)).toNat := by
      omega
    rw [hk]
    rw [fdiv_pos_eq_ediv _ _ (by positivity)]
    exact Int.mul_ediv_cancel n (by positivity : (0:ℤ) < 2 ^ ((52 : ℤ) - (nlog2 n.toNat : ℤ)).toNat).ne'

/-- Round trip `int(float(n))` of `pool.py` line 153 is exact for
integers below `2^53`. -/
theorem parse_tokenB_exact (n : ℤ) (h0 : 0 ≤ n) (h1 : n < 2 ^ 53) :
    parse_tokenB_balance n = n := by
  rcases eq_or_lt_of_le h0 with h | h
  · rw [← h]
    decide
  · have hn : ¬ n ≤ 0 := by omega
    unfold parse_tokenB_balance float_of_int
    rw [if_neg hn]
    exact rnd64_int_exact n (by omega) h1

/-- C4 fails as stated: the slippage computation is done in binary64
floating point, not exact integer arithmetic — at the quoted expected
output `10^18 - 1` the submitted minimum is `int(float(999999999999999999)*0.96)
 = 960000000000000000`, one more than the exact
`floor(999999999999999999 * 96 / 100) = 959999999999999999`; and the
pool reserve of token B is parsed through `int(float(...))`, which
already corrupts the integer `2^53 + 1`. -/
theorem c4_counterexample :
    min_amount_out_submitted 999999999999999999 ≠ ((999999999999999999 : ℤ) * 96).fdiv 100 ∧
    parse_tokenB_balance (2 ^ 53 + 1) ≠ 2 ^ 53 + 1 := by decide

/-- C4 amended: the minimum acceptable output submitted on-chain is the
binary64 evaluation `int(float(expected_output) * 0.96)` (truncated
double product with the double nearest `0.96`), which agrees with the
exact `floor(expected_output * 96 / 100)` for some inputs (e.g. `10^18`)
but not in general (e.g. `10^18 - 1`); and the token-B reserve parse
`int(float(...))` is exact precisely on values small enough for
binary64, in particular on every value below `2^53`. -/
theorem c4_amended (n : ℤ) (h0 : 0 ≤ n) (h1 : n < 2 ^ 53) :
    parse_tokenB_balance n = n ∧
    min_amount_out_submitted (10 ^ 18) = ((10 : ℤ) ^ 18 * 96).fdiv 100 ∧
    min_amount_out_submitted 999999999999999999 = 960000000000000000 :=
  ⟨parse_tokenB_exact n h0 h1, by decide, by decide⟩

/-- Witness for `c4_amended` at `n = 42`. -/
theorem c4_amended_witness :
    parse_tokenB_balance 42 = 42 ∧
    min_amount_out_submitted (10 ^ 18) = ((10 : ℤ) ^ 18 * 96).fdiv 100 ∧
    min_amount_out_submitted 999999999999999999 = 960000000000000000 :=
  c4_amended 42 (by decide) (by decide)
